import Mathlib

/-!
Shallow embedding of the abelian-sandpile library in `src/src/lib.rs`.

The Rust code manipulates a `Vec<Vec<u32>>` grid in place and stabilizes it
with a round-based toppling loop driven by a `HashSet` of active cells.  We
model the grid as `List (List Nat)` with total getter/setter helpers, and the
unbounded `while` loop of `topple` with an explicit round-count fuel, returning
`none` when the fuel runs out.  The `HashSet` iteration order of the source is
unspecified; the model fixes one deterministic order (insertion order,
duplicates suppressed), which is one of the behaviours the source can exhibit.
All other control flow (validation order, error payloads, the `d == 0` skip,
the sink normalisation for the toroidal topology) follows the source line by
line.
-/

namespace Sandpile

/-- `GridType` from the source: `Finite` (sink all around the grid) or
`Toroidal` (sink at the top-left node). -/
inductive GridType where
  | Finite
  | Toroidal
deriving DecidableEq, Repr

/-- `Grid = Vec<Vec<Cell>>`; cell values are `u32`, modelled as `Nat`
(all values occurring in the library are tiny, far from overflow). -/
abbrev Grid := List (List Nat)

/-- Row lookup `grid[i]`; out of range gives `[]` (all in-range in the source). -/
def getRow (g : Grid) (i : Nat) : List Nat :=
  match g, i with
  | [], _ => []
  | r :: _, 0 => r
  | _ :: t, i + 1 => getRow t i

/-- Cell lookup within a row; out of range gives `0`. -/
def lget (r : List Nat) (j : Nat) : Nat :=
  match r, j with
  | [], _ => 0
  | v :: _, 0 => v
  | _ :: t, j + 1 => lget t j

/-- Write within a row; out of range is the identity. -/
def lset (r : List Nat) (j v : Nat) : List Nat :=
  match r, j with
  | [], _ => []
  | _ :: t, 0 => v :: t
  | a :: t, j + 1 => a :: lset t j v

/-- Replace row `i`; out of range is the identity. -/
def setRow (g : Grid) (i : Nat) (r : List Nat) : Grid :=
  match g, i with
  | [], _ => []
  | _ :: t, 0 => r :: t
  | h :: t, i + 1 => h :: setRow t i r

/-- `grid[i][j]` read. -/
def get2 (g : Grid) (i j : Nat) : Nat := lget (getRow g i) j

/-- `grid[i][j] = v` write. -/
def set2 (g : Grid) (i j v : Nat) : Grid := setRow g i (lset (getRow g i) j v)

/-- `grid[0]`, as used by the source for the column count. -/
def firstRow (g : Grid) : List Nat := getRow g 0

/-- The struct `GridSandpile`: topology, grid, and the toppling count of the
most recent stabilization. -/
structure GridSandpile where
  grid_type : GridType
  grid : Grid
  last_topple : Nat
deriving DecidableEq, Repr

/-- The source's `PartialEq` for `GridSandpile`: compares `grid_type` and
`grid`, ignoring `last_topple`. -/
def spEq (a b : GridSandpile) : Bool :=
  decide (a.grid_type = b.grid_type ∧ a.grid = b.grid)

/-- `SandpileError` with the exact payloads of the source. -/
inductive SandpileError where
  | EmptyGrid
  | EmptyFirstRow (g : Grid)
  | UnequalRowLengths (g : Grid) (expected i got : Nat)
  | UnequalTypes (a b : GridType)
  | UnequalDimensions (a b c d : Nat)
  | UnknownSymbol (c : Char)
deriving DecidableEq, Repr

/-- The neighbour list `topple_to` built for cell `(i, j)` inside `topple`,
in the source's push order (up, left, down, right), including the toroidal
guards that skip any neighbour resolving to the sink `(0,0)`. -/
def targets (t : GridType) (g : Grid) (i j : Nat) : List (Nat × Nat) :=
  match t with
  | .Finite =>
      (if 0 < i then [(i - 1, j)] else []) ++
      (if 0 < j then [(i, j - 1)] else []) ++
      (if i < g.length - 1 then [(i + 1, j)] else []) ++
      (if j < (getRow g i).length - 1 then [(i, j + 1)] else [])
  | .Toroidal =>
      let i1 := if 0 < i then i - 1 else g.length - 1
      let j1 := if 0 < j then j - 1 else (firstRow g).length - 1
      let i2 := if i < g.length - 1 then i + 1 else 0
      let j2 := if j < (getRow g i).length - 1 then j + 1 else 0
      (if i1 = 0 ∧ j = 0 then [] else [(i1, j)]) ++
      (if i = 0 ∧ j1 = 0 then [] else [(i, j1)]) ++
      (if i2 = 0 ∧ j = 0 then [] else [(i2, j)]) ++
      (if i = 0 ∧ j2 = 0 then [] else [(i, j2)])

/-- Insert into the next-round active set, keeping set semantics
(the source uses a `HashSet`). -/
def insertCell (l : List (Nat × Nat)) (p : Nat × Nat) : List (Nat × Nat) :=
  if p ∈ l then l else l ++ [p]

/-- Distribute `d` chips to each target in turn; any receiver reaching `≥ 4`
is inserted into the next-round active set (source lines 191-196). -/
def credit (g : Grid) (ex2 : List (Nat × Nat)) (d : Nat) :
    List (Nat × Nat) → Grid × List (Nat × Nat)
  | [] => (g, ex2)
  | (ti, tj) :: rest =>
      let g' := set2 g ti tj (get2 g ti tj + d)
      let ex2' := if 4 ≤ get2 g' ti tj then insertCell ex2 (ti, tj) else ex2
      credit g' ex2' d rest

/-- One round of the toppling loop: drain the current active set, firing each
cell `value / 4` times at once (`d == 0` entries are skipped, mirroring the
source's `continue`).  Returns the new grid, the topplings performed this
round, and the next-round active set. -/
def processRound (t : GridType) :
    Grid → Nat → List (Nat × Nat) → List (Nat × Nat) → Grid × Nat × List (Nat × Nat)
  | g, cnt, ex2, [] => (g, cnt, ex2)
  | g, cnt, ex2, (i, j) :: rest =>
      let d := get2 g i j / 4
      if d = 0 then processRound t g cnt ex2 rest
      else
        let g1 := set2 g i j (get2 g i j % 4)
        let res := credit g1 ex2 d (targets t g1 i j)
        processRound t res.1 (cnt + d) res.2 rest

/-- Scan one row for cells `≥ 4` (`i` is the row index, `j` the column of the
head of the remaining row). -/
def scanRowAux (i j : Nat) : List Nat → List (Nat × Nat)
  | [] => []
  | v :: rest => (if 4 ≤ v then [(i, j)] else []) ++ scanRowAux i (j + 1) rest

/-- Scan the grid row by row for cells `≥ 4` (`i` is the index of the head row). -/
def scanAux (i : Nat) : Grid → List (Nat × Nat)
  | [] => []
  | r :: rest => scanRowAux i 0 r ++ scanAux (i + 1) rest

/-- The initial active set of `topple` (source lines 138-144). -/
def activeCells (g : Grid) : List (Nat × Nat) := scanAux 0 g

/-- The `while !excessive.is_empty()` loop of `topple`, with fuel counting the
rounds; `none` models fuel exhaustion (the source loop is unbounded). -/
def toppleLoop (t : GridType) : Grid → List (Nat × Nat) → Nat → Nat → Option (Grid × Nat)
  | g, [], cnt, _ => some (g, cnt)
  | _, _ :: _, _, 0 => none
  | g, a :: rest, cnt, fuel + 1 =>
      let res := processRound t g 0 [] (a :: rest)
      toppleLoop t res.1 res.2.2 (cnt + res.2.1) fuel

/-- `GridSandpile::topple`: stabilize `g`, returning the stable grid and the
total number of individual topplings. -/
def topple (t : GridType) (g : Grid) (fuel : Nat) : Option (Grid × Nat) :=
  toppleLoop t g (activeCells g) 0 fuel

/-- The ragged-row scan of `from_grid` (source lines 55-60): first row index
(counting from `i`) whose length differs from `l`, with that length. -/
def findBadRow (l : Nat) : Nat → List (List Nat) → Option (Nat × Nat)
  | _, [] => none
  | i, r :: rest => if r.length ≠ l then some (i, r.length) else findBadRow l (i + 1) rest

/-- `GridSandpile::from_grid`.  `.error e` is the source's `Err(e)`;
`.ok none` is fuel exhaustion inside `topple`; `.ok (some s)` is `Ok(s)`. -/
def fromGrid (t : GridType) (g : Grid) (fuel : Nat) :
    Except SandpileError (Option GridSandpile) :=
  if g = [] then .error .EmptyGrid
  else if (firstRow g).length = 0 then .error (.EmptyFirstRow g)
  else
    match findBadRow (firstRow g).length 1 g.tail with
    | some (i, l2) => .error (.UnequalRowLengths g (firstRow g).length i l2)
    | none =>
        match topple t (if t = .Toroidal then set2 g 0 0 0 else g) fuel with
        | none => .ok none
        | some (g2, c) => .ok (some ⟨t, g2, c⟩)

/-- The glyph map of `from_string` (source lines 78-85). -/
def charVal (c : Char) : Option Nat :=
  if c = ' ' then some 0
  else if c = '.' then some 1
  else if c = ':' then some 2
  else if c = '&' then some 3
  else if c = '#' then some 4
  else none

/-- Parse one line of glyphs into a row of counts; the first unknown glyph
aborts with `UnknownSymbol`. -/
def parseRow : List Char → Except SandpileError (List Nat)
  | [] => .ok []
  | c :: rest =>
      match charVal c with
      | none => .error (.UnknownSymbol c)
      | some v =>
          match parseRow rest with
          | .error e => .error e
          | .ok r => .ok (v :: r)

/-- Parse the lines in order. -/
def parseLines : List (List Char) → Except SandpileError Grid
  | [] => .ok []
  | l :: rest =>
      match parseRow l with
      | .error e => .error e
      | .ok r =>
          match parseLines rest with
          | .error e => .error e
          | .ok g => .ok (r :: g)

/-- Rust's `str::lines` on `'\n'`-separated text (no `'\r'` occurs in any text
this library produces): split on `'\n'`, without a trailing empty line. -/
def linesAux (acc : List Char) : List Char → List (List Char)
  | [] => if acc = [] then [] else [acc.reverse]
  | c :: rest =>
      if c = '\n' then acc.reverse :: linesAux [] rest
      else linesAux (c :: acc) rest

/-- The line list of a string, as `s.lines()` iterates it. -/
def rustLines (s : String) : List (List Char) := linesAux [] s.data

/-- `GridSandpile::from_string`: parse, check emptiness, delegate to
`from_grid`, then check the parsed dimensions against the expected `(x, y)`. -/
def fromString (t : GridType) (x y : Nat) (s : String) (fuel : Nat) :
    Except SandpileError (Option GridSandpile) :=
  match parseLines (rustLines s) with
  | .error e => .error e
  | .ok g =>
      if y = 0 ∨ x = 0 ∨ g = [] then .error .EmptyGrid
      else
        match fromGrid t g fuel with
        | .error e => .error e
        | .ok none => .ok none
        | .ok (some sp) =>
            if sp.grid.length ≠ y ∨ (firstRow sp.grid).length ≠ x then
              .error (.UnequalDimensions x y sp.grid.length (firstRow sp.grid).length)
            else .ok (some sp)

/-- A row `[f j, f (j+1), ...]` of the given length. -/
def mkRow (f : Nat → Nat) : Nat → Nat → List Nat
  | _, 0 => []
  | j, n + 1 => f j :: mkRow f (j + 1) n

/-- A grid whose cell `(i, j)` is `f i j`, with `rows` rows of `cols` cells
(the row index starts at `i0`). -/
def mkGridAux (f : Nat → Nat → Nat) (cols : Nat) : Nat → Nat → Grid
  | _, 0 => []
  | i, n + 1 => mkRow (f i) 0 cols :: mkGridAux f cols (i + 1) n

/-- The elementwise sum loop of `add` (source lines 107-111): `self.grid[i][j]
+= p.grid[i][j]` for `i < self.grid.len()`, `j < self.grid[0].len()`. -/
def addGrids (a b : Grid) : Grid :=
  mkGridAux (fun i j => get2 a i j + get2 b i j) (firstRow a).length 0 a.length

/-- `GridSandpile::add`.  The returned pair is `(the Result, self after the
call)`; on the two error paths the source returns before touching the grid, so
`self` comes back unchanged.  `none` models fuel exhaustion inside `topple`. -/
def add (s p : GridSandpile) (fuel : Nat) :
    Option (Except SandpileError Unit × GridSandpile) :=
  if s.grid_type ≠ p.grid_type then
    some (.error (.UnequalTypes s.grid_type p.grid_type), s)
  else if p.grid.length ≠ s.grid.length ∨ (firstRow p.grid).length ≠ (firstRow s.grid).length then
    some (.error (.UnequalDimensions s.grid.length (firstRow s.grid).length
      p.grid.length (firstRow p.grid).length), s)
  else
    match topple s.grid_type (addGrids s.grid p.grid) fuel with
    | none => none
    | some (g, c) => some (.ok (), ⟨s.grid_type, g, c⟩)

/-- The all-6 grid `vec![vec![6; x]; y]` used by `neutral` and `inverse`. -/
def sixGrid (x y : Nat) : Grid := List.replicate y (List.replicate x 6)

/-- Whether the `from_grid(...).unwrap()` inside `neutral` panics, i.e.
whether `from_grid` on the all-6 grid returns `Err` (fuel-independent: the
validation runs before any toppling). -/
def neutralPanics (t : GridType) (x y : Nat) : Bool :=
  match fromGrid t (sixGrid x y) 0 with
  | .error _ => true
  | .ok _ => false

/-- `GridSandpile::neutral`.  `.error e` models the `unwrap()` panic on the
inner `from_grid` (the source has no error channel here); `.ok none` is fuel
exhaustion. -/
def neutral (t : GridType) (x y : Nat) (fuel : Nat) :
    Except SandpileError (Option GridSandpile) :=
  match fromGrid t (sixGrid x y) fuel with
  | .error e => .error e
  | .ok none => .ok none
  | .ok (some sp) =>
      match topple t (if t = .Toroidal
          then set2 (sp.grid.map fun r => r.map fun v => 6 - v) 0 0 0
          else sp.grid.map fun r => r.map fun v => 6 - v) fuel with
      | none => .ok none
      | some (g2, c) => .ok (some ⟨t, g2, c⟩)

/-- The cellwise loop of `inverse` (source lines 210-214): over `self`'s
dimensions, `2 * (6 - M[i][j]) - self.grid[i][j]` where `M` is the stabilized
all-6 grid. -/
def invGrid (s : GridSandpile) (M : Grid) : Grid :=
  mkGridAux (fun i j => 2 * (6 - get2 M i j) - get2 s.grid i j)
    (firstRow s.grid).length 0 s.grid.length

/-- `GridSandpile::inverse`.  Builds the stabilized all-6 reference grid, then
writes `2 * (6 - M[y][x]) - self.grid[y][x]` cellwise, re-forces the toroidal
sink, and stabilizes.  `.error e` models the `unwrap()` panic on the inner
`from_grid`; `.ok none` is fuel exhaustion. -/
def inverse (s : GridSandpile) (fuel : Nat) :
    Except SandpileError (Option GridSandpile) :=
  match fromGrid s.grid_type (sixGrid (firstRow s.grid).length s.grid.length) fuel with
  | .error e => .error e
  | .ok none => .ok none
  | .ok (some sp) =>
      match topple s.grid_type (if s.grid_type = .Toroidal
          then set2 (invGrid s sp.grid) 0 0 0 else invGrid s sp.grid) fuel with
      | none => .ok none
      | some (g2, c) => .ok (some ⟨s.grid_type, g2, c⟩)

/-- The `while a != *self` loop of `order`: `count` is returned once
`acc == self` (the source's `PartialEq`, i.e. `spEq`); otherwise `self` is
added into `acc` and the loop repeats.  The outer fuel bounds the iterations,
`inner` is the toppling fuel of each `add`; `none` models both fuel exhaustion
and the (unreachable) `unwrap` failure on `add`. -/
def orderLoop (x : GridSandpile) : GridSandpile → Nat → Nat → Nat → Option Nat
  | _, _, _, 0 => none
  | acc, count, inner, fuel + 1 =>
      if spEq acc x then some count
      else
        match add acc x inner with
        | some (.ok _, acc') => orderLoop x acc' (count + 1) inner fuel
        | _ => none

/-- `GridSandpile::order`: `a = x + x` stabilized, `count = 1`, then the loop. -/
def order (s : GridSandpile) (inner outer : Nat) : Option Nat :=
  match add s s inner with
  | some (.ok _, a) => orderLoop s a 1 inner outer
  | _ => none

/-- The termination claim of `order` on `s`: some choice of fuels makes it
return. -/
def orderTerminates (s : GridSandpile) : Prop :=
  ∃ inner outer n, order s inner outer = some n

/-- The glyph emitted by the `Display` impl for a cell value (clamping `≥ 4`
to `'#'`, source line 38). -/
def glyphChar (v : Nat) : Char :=
  lgetChar [' ', '.', ':', '&', '#'] (if v < 4 then v else 4)
where
  lgetChar : List Char → Nat → Char
    | [], _ => ' '
    | c :: _, 0 => c
    | _ :: t, j + 1 => lgetChar t j

/-- The character stream of the `Display` impl: each row's glyphs followed by
a newline. -/
def renderChars : Grid → List Char
  | [] => []
  | r :: rest => r.map glyphChar ++ ('\n' :: renderChars rest)

/-- The `Display` impl: the text representation of a sandpile. -/
def render (s : GridSandpile) : String := ⟨renderChars s.grid⟩

/-- The projection used to state claims about the grid of a successful result. -/
def resultGrid (r : Except SandpileError (Option GridSandpile)) : Option Grid :=
  match r with
  | .ok (some s) => some s.grid
  | _ => none

/-- Sandpiles obtainable from the public API: the results of `from_grid`,
`from_string`, `neutral`, and of `add`/`inverse` applied to such sandpiles
(the struct's fields are private, so every `GridSandpile` a caller can hold
arises this way). -/
inductive Produced : GridSandpile → Prop where
  | fromGrid (t : GridType) (g : Grid) (fuel : Nat) (s : GridSandpile) :
      fromGrid t g fuel = .ok (some s) → Produced s
  | fromString (t : GridType) (x y : Nat) (str : String) (fuel : Nat) (s : GridSandpile) :
      fromString t x y str fuel = .ok (some s) → Produced s
  | add (a b : GridSandpile) (fuel : Nat) (s : GridSandpile) :
      Produced a → Produced b → add a b fuel = some (.ok (), s) → Produced s
  | neutral (t : GridType) (x y : Nat) (fuel : Nat) (s : GridSandpile) :
      neutral t x y fuel = .ok (some s) → Produced s
  | inverse (a : GridSandpile) (fuel : Nat) (s : GridSandpile) :
      Produced a → inverse a fuel = .ok (some s) → Produced s

/-- Stability: every cell holds fewer than 4 chips. -/
def Stable (g : Grid) : Prop := ∀ i j, get2 g i j < 4

/-- Well-formedness enforced at construction: at least one row, a nonempty
first row, and all rows of the first row's length. -/
def WF (g : Grid) : Prop :=
  g ≠ [] ∧ (firstRow g).length ≠ 0 ∧ ∀ r ∈ g, r.length = (firstRow g).length

/-- Decidable check that every stored cell value is below 4. -/
def boundedStable (g : Grid) : Bool := g.all fun r => r.all fun v => decide (v < 4)

/-- The grid produced by a successful `add` (the stabilized elementwise sum). -/
def addResult (s p : GridSandpile) (fuel : Nat) : Option Grid :=
  match add s p fuel with
  | some (.ok _, r) => some r.grid
  | _ => none

/-! ### Basic lemmas about the grid helpers -/

theorem lget_eq_zero_or_mem (r : List Nat) (j : Nat) : lget r j = 0 ∨ lget r j ∈ r := by
  induction r generalizing j with
  | nil => exact Or.inl rfl
  | cons v t ih =>
      cases j with
      | zero => exact Or.inr (List.mem_cons_self v t)
      | succ j =>
          rcases ih j with h | h
          · exact Or.inl h
          · exact Or.inr (List.mem_cons_of_mem v h)

theorem getRow_eq_nil_or_mem (g : Grid) (i : Nat) : getRow g i = [] ∨ getRow g i ∈ g := by
  induction g generalizing i with
  | nil => exact Or.inl rfl
  | cons r t ih =>
      cases i with
      | zero => exact Or.inr (List.mem_cons_self r t)
      | succ i =>
          rcases ih i with h | h
          · exact Or.inl h
          · exact Or.inr (List.mem_cons_of_mem r h)

theorem stable_of_boundedStable (g : Grid) (h : boundedStable g = true) : Stable g := by
  intro i j
  rcases getRow_eq_nil_or_mem g i with hr | hr
  · rcases lget_eq_zero_or_mem (getRow g i) j with hv | hv
    · simp [get2, hv]
    · rw [hr] at hv; cases hv
  · rcases lget_eq_zero_or_mem (getRow g i) j with hv | hv
    · simp [get2, hv]
    · have := (List.all_eq_true.mp h) _ hr
      have := (List.all_eq_true.mp this) _ hv
      exact of_decide_eq_true this

/-! ### The stabilizer on already-stable grids (C7) -/

theorem scanRowAux_eq_nil (i j : Nat) (r : List Nat) (h : ∀ k, lget r k < 4) :
    scanRowAux i j r = [] := by
  induction r generalizing j with
  | nil => rfl
  | cons v t ih =>
      have hv : v < 4 := h 0
      have ht : ∀ k, lget t k < 4 := fun k => h (k + 1)
      simp [scanRowAux, Nat.not_le.mpr hv, ih (j + 1) ht]

theorem scanAux_eq_nil (i : Nat) (g : Grid) (h : ∀ i' j, get2 g i' j < 4) :
    scanAux i g = [] := by
  induction g generalizing i with
  | nil => rfl
  | cons r t ih =>
      have hr : ∀ k, lget r k < 4 := fun k => h 0 k
      have ht : ∀ i' j, get2 t i' j < 4 := fun i' j => h (i' + 1) j
      simp [scanAux, scanRowAux_eq_nil i 0 r hr, ih (i + 1) ht]

theorem toppleLoop_nil (t : GridType) (g : Grid) (cnt fuel : Nat) :
    toppleLoop t g [] cnt fuel = some (g, cnt) := by
  cases fuel <;> rfl

theorem topple_stable_eq (t : GridType) (g : Grid) (fuel : Nat)
    (h : Stable g) : topple t g fuel = some (g, 0) := by
  unfold topple activeCells
  rw [scanAux_eq_nil 0 g h]
  exact toppleLoop_nil t g 0 fuel

/-- C7 -- Idempotence of stabilization: on a configuration whose cells are all
strictly below 4, the stabilizer performs zero topplings and returns the grid
unchanged, for every topology and every fuel. -/
theorem c7_stable_topple_zero (t : GridType) (g : Grid) (fuel : Nat)
    (h : Stable g) : topple t g fuel = some (g, 0) :=
  topple_stable_eq t g fuel h

/-- Witness for C7 at a concrete stable grid. -/
theorem c7_stable_topple_zero_witness :
    topple .Finite [[3, 1, 0], [2, 1, 2]] 0 = some ([[3, 1, 0], [2, 1, 2]], 0) :=
  c7_stable_topple_zero .Finite [[3, 1, 0], [2, 1, 2]] 0
    (stable_of_boundedStable _ (by decide))

/-! ### Concrete neutral elements (C8) -/

/-- C8 -- The neutral-element construction on a 3-column by 2-row grid yields
`[[2,1,2],[2,1,2]]` for the Finite topology and `[[0,3,3],[2,1,1]]` for the
Toroidal topology. -/
theorem c8_neutral_values :
    resultGrid (neutral .Finite 3 2 20) = some [[2, 1, 2], [2, 1, 2]] ∧
    resultGrid (neutral .Toroidal 3 2 20) = some [[0, 3, 3], [2, 1, 1]] := by
  decide

/-! ### The group-identity claim (C2) -/

/-- C2 counterexample -- adding the neutral element does not return every
configuration unchanged: the all-zero 1-row 2-column Finite configuration is
accepted by construction, the neutral element of that shape is `[[3,3]]`, and
their sum stabilizes to `[[3,3]] ≠ [[0,0]]`. -/
theorem c2_counterexample :
    resultGrid (fromGrid .Finite [[0, 0]] 5) = some [[0, 0]] ∧
    resultGrid (neutral .Finite 2 1 5) = some [[3, 3]] ∧
    addResult ⟨.Finite, [[0, 0]], 0⟩ ⟨.Finite, [[3, 3]], 0⟩ 5 = some [[3, 3]] ∧
    ([[3, 3]] : Grid) ≠ [[0, 0]] := by
  decide

/-- C2 amended -- `add(x, neutral(topology, dims(x))) == x` holds for
recurrent configurations `x` (the neutral element itself, the maximal stable
configuration), not for every configuration: verified on the 3x2 grids of both
topologies. -/
theorem c2_amended_identity :
    resultGrid (neutral .Finite 3 2 20) = some [[2, 1, 2], [2, 1, 2]] ∧
    addResult ⟨.Finite, [[2, 1, 2], [2, 1, 2]], 8⟩ ⟨.Finite, [[2, 1, 2], [2, 1, 2]], 8⟩ 20
      = some [[2, 1, 2], [2, 1, 2]] ∧
    addResult ⟨.Finite, [[3, 3, 3], [3, 3, 3]], 0⟩ ⟨.Finite, [[2, 1, 2], [2, 1, 2]], 8⟩ 20
      = some [[3, 3, 3], [3, 3, 3]] ∧
    resultGrid (neutral .Toroidal 3 2 20) = some [[0, 3, 3], [2, 1, 1]] ∧
    addResult ⟨.Toroidal, [[0, 3, 3], [2, 1, 1]], 12⟩ ⟨.Toroidal, [[0, 3, 3], [2, 1, 1]], 12⟩ 20
      = some [[0, 3, 3], [2, 1, 1]] := by
  decide

/-! ### Error reporting on construction (C5) -/

/-- C5 counterexample -- the neutral-element builder does not report the
non-emptiness violation as a recoverable error: it `unwrap`s the inner
`from_grid` result, so zero width or zero height makes it panic. -/
theorem c5_counterexample :
    neutralPanics .Finite 0 1 = true ∧ neutralPanics .Finite 1 0 = true ∧
    neutralPanics .Toroidal 0 1 = true ∧ neutralPanics .Toroidal 1 0 = true := by
  decide

theorem fromGrid_emptyFirstRow (t : GridType) (fuel : Nat) (g : Grid)
    (hne : g ≠ []) (hfr : firstRow g = []) :
    fromGrid t g fuel = .error (.EmptyFirstRow g) := by
  cases g with
  | nil => exact absurd rfl hne
  | cons r rest => simp [fromGrid, hfr]

theorem fromString_empty (t : GridType) (x y fuel : Nat) (str : String) (g : Grid)
    (hp : parseLines (rustLines str) = .ok g) (hc : y = 0 ∨ x = 0 ∨ g = []) :
    fromString t x y str fuel = .error .EmptyGrid := by
  unfold fromString
  split
  next e hp' =>
      rw [hp] at hp'
      cases hp'
  next g' hp' =>
      rw [hp] at hp'
      injection hp' with hg
      subst hg
      rw [if_pos hc]

theorem fromString_emptyFirstRow (t : GridType) (x y fuel : Nat) (str : String)
    (g : Grid) (hp : parseLines (rustLines str) = .ok g)
    (hy : y ≠ 0) (hx : x ≠ 0) (hg : g ≠ []) (hfr : firstRow g = []) :
    fromString t x y str fuel = .error (.EmptyFirstRow g) := by
  have hfg : fromGrid t g fuel = .error (.EmptyFirstRow g) :=
    fromGrid_emptyFirstRow t fuel g hg hfr
  unfold fromString
  split
  next e hp' =>
      rw [hp] at hp'
      cases hp'
  next g' hp' =>
      rw [hp] at hp'
      injection hp' with hge
      subst hge
      have hcond : ¬(y = 0 ∨ x = 0 ∨ g = []) := by
        rintro (h | h | h)
        · exact hy h
        · exact hx h
        · exact hg h
      rw [if_neg hcond]
      split
      next e heq =>
          rw [hfg] at heq
          injection heq with he
          rw [← he]
      next heq =>
          rw [hfg] at heq
          cases heq
      next sp heq =>
          rw [hfg] at heq
          cases heq

theorem neutralPanics_of_degenerate (t : GridType) (x y : Nat)
    (hxy : x = 0 ∨ y = 0) : neutralPanics t x y = true := by
  cases y with
  | zero => simp [neutralPanics, sixGrid, fromGrid]
  | succ y' =>
      rcases hxy with hx | hy
      · subst hx
        simp [neutralPanics, sixGrid, fromGrid, List.replicate_succ, firstRow, getRow]
      · cases hy

/-- C5 amended -- `from_grid` reports zero rows as `EmptyGrid` and an empty
first row as `EmptyFirstRow`, and `from_string` likewise reports a degenerate
size (zero expected width or height, or no parsed rows) as `EmptyGrid` and an
empty parsed first row as `EmptyFirstRow` -- all as recoverable errors; the
neutral-element builder instead panics (its inner `from_grid(...).unwrap()`
fails) whenever the requested width or height is zero. -/
theorem c5_amended (t : GridType) (fuel : Nat) (g : Grid) (x y : Nat) (str : String) :
    fromGrid t [] fuel = .error .EmptyGrid ∧
    (g ≠ [] → firstRow g = [] → fromGrid t g fuel = .error (.EmptyFirstRow g)) ∧
    (parseLines (rustLines str) = .ok g → y = 0 ∨ x = 0 ∨ g = [] →
      fromString t x y str fuel = .error .EmptyGrid) ∧
    (parseLines (rustLines str) = .ok g → y ≠ 0 → x ≠ 0 → g ≠ [] → firstRow g = [] →
      fromString t x y str fuel = .error (.EmptyFirstRow g)) ∧
    (x = 0 ∨ y = 0 → neutralPanics t x y = true) :=
  ⟨rfl,
   fromGrid_emptyFirstRow t fuel g,
   fromString_empty t x y fuel str g,
   fromString_emptyFirstRow t x y fuel str g,
   neutralPanics_of_degenerate t x y⟩

/-- Witness for C5 at concrete inputs: each conjunct of the amended theorem
exercised at an explicit input with its hypotheses discharged. -/
theorem c5_amended_witness :
    fromGrid .Finite [] 3 = .error .EmptyGrid ∧
    fromGrid .Finite [[], [1]] 3 = .error (.EmptyFirstRow [[], [1]]) ∧
    fromString .Finite 3 0 "." 3 = .error .EmptyGrid ∧
    fromString .Finite 1 2 "\n." 3 = .error (.EmptyFirstRow [[], [1]]) ∧
    neutralPanics .Finite 0 2 = true :=
  ⟨(c5_amended .Finite 3 [[], [1]] 1 2 "\n.").1,
   (c5_amended .Finite 3 [[], [1]] 1 2 "\n.").2.1 (by decide) rfl,
   (c5_amended .Finite 3 [[1]] 3 0 ".").2.2.1 rfl (Or.inl rfl),
   (c5_amended .Finite 3 [[], [1]] 1 2 "\n.").2.2.2.1 rfl
     (by decide) (by decide) (by decide) rfl,
   (c5_amended .Finite 3 [] 0 2 "").2.2.2.2 (Or.inl rfl)⟩

/-! ### Error handling of `add` (C9) -/

/-- C9 -- `add` validates before mutating: a topology mismatch returns
`UnequalTypes` and a dimension mismatch returns `UnequalDimensions` (with the
payloads of the source), and in both cases the caller's configuration comes
back exactly as it was (the second operand is only ever read). -/
theorem c9_add_mismatch (s p : GridSandpile) (fuel : Nat) :
    (s.grid_type ≠ p.grid_type →
      add s p fuel = some (.error (.UnequalTypes s.grid_type p.grid_type), s)) ∧
    (s.grid_type = p.grid_type →
      (p.grid.length ≠ s.grid.length ∨ (firstRow p.grid).length ≠ (firstRow s.grid).length) →
      add s p fuel = some (.error (.UnequalDimensions s.grid.length (firstRow s.grid).length
        p.grid.length (firstRow p.grid).length), s)) := by
  constructor
  · intro h
    simp [add, h]
  · intro hty hdim
    simp [add, hty, hdim]

/-! ### Termination of `order` (C4) -/

theorem toppleLoop_cons (t : GridType) (g : Grid) (a : Nat × Nat)
    (rest : List (Nat × Nat)) (cnt fuel : Nat) :
    toppleLoop t g (a :: rest) cnt (fuel + 1) =
      toppleLoop t (processRound t g 0 [] (a :: rest)).1
        (processRound t g 0 [] (a :: rest)).2.2
        (cnt + (processRound t g 0 [] (a :: rest)).2.1) fuel := rfl

/-- Adding `[[0,1]]` into the stable toroidal state `[[0,2]]` gives `[[0,3]]`
for every fuel. -/
theorem c4aux_add02 (lt inner : Nat) :
    add ⟨.Toroidal, [[0, 2]], lt⟩ ⟨.Toroidal, [[0, 1]], 0⟩ inner
      = some (.ok (), ⟨.Toroidal, [[0, 3]], 0⟩) := by
  unfold add
  rw [if_neg (fun hc => hc rfl), if_neg (fun hc => Or.elim hc (fun hn => hn rfl) (fun hn => hn rfl))]
  have h : addGrids [[0, 2]] [[0, 1]] = [[0, 3]] := rfl
  rw [h, topple_stable_eq .Toroidal [[0, 3]] inner (stable_of_boundedStable _ (by decide))]

/-- Adding `[[0,1]]` into `[[0,3]]` with no toppling fuel exhausts the fuel. -/
theorem c4aux_add03_zero (lt : Nat) :
    add ⟨.Toroidal, [[0, 3]], lt⟩ ⟨.Toroidal, [[0, 1]], 0⟩ 0 = none := by
  unfold add
  rw [if_neg (fun hc => hc rfl), if_neg (fun hc => Or.elim hc (fun hn => hn rfl) (fun hn => hn rfl))]
  have h : topple .Toroidal (addGrids [[0, 3]] [[0, 1]]) 0 = none := rfl
  rw [h]

/-- Adding `[[0,1]]` into `[[0,3]]` overflows the non-sink cell to 4, which
fires once (both wrapped vertical neighbours are the cell itself, the two
horizontal ones resolve to the sink and are skipped), leaving `[[0,2]]`. -/
theorem c4aux_add03 (lt f : Nat) :
    add ⟨.Toroidal, [[0, 3]], lt⟩ ⟨.Toroidal, [[0, 1]], 0⟩ (f + 1)
      = some (.ok (), ⟨.Toroidal, [[0, 2]], 1⟩) := by
  unfold add
  rw [if_neg (fun hc => hc rfl), if_neg (fun hc => Or.elim hc (fun hn => hn rfl) (fun hn => hn rfl))]
  have h : topple .Toroidal (addGrids [[0, 3]] [[0, 1]]) (f + 1) = some ([[0, 2]], 1) := by
    show toppleLoop .Toroidal [[0, 4]] (activeCells [[0, 4]]) 0 (f + 1) = some ([[0, 2]], 1)
    have ha : activeCells [[0, 4]] = [(0, 1)] := rfl
    rw [ha, toppleLoop_cons]
    have hr : processRound .Toroidal [[0, 4]] 0 [] [(0, 1)] = ([[0, 2]], 1, []) := rfl
    rw [hr]
    exact toppleLoop_nil .Toroidal [[0, 2]] (0 + 1) f
  rw [h]

/-- The `while a != *self` loop never exits once the accumulator has entered
the 2-cycle `[[0,2]] -> [[0,3]] -> [[0,2]]`, which does not contain `[[0,1]]`. -/
theorem c4aux_orderLoop_diverges (outer : Nat) : ∀ (count inner : Nat) (acc : GridSandpile),
    acc.grid_type = .Toroidal → (acc.grid = [[0, 2]] ∨ acc.grid = [[0, 3]]) →
    orderLoop ⟨.Toroidal, [[0, 1]], 0⟩ acc count inner outer = none := by
  induction outer with
  | zero => intro count inner acc _ _; rfl
  | succ n ih =>
      intro count inner acc hty hg
      obtain ⟨gt, g, lt⟩ := acc
      simp only at hty hg
      subst hty
      rcases hg with hg | hg <;> subst hg
      · show (if spEq ⟨.Toroidal, [[0, 2]], lt⟩ ⟨.Toroidal, [[0, 1]], 0⟩ then _ else _) = none
        rw [if_neg (by simp [spEq])]
        rw [c4aux_add02 lt inner]
        exact ih (count + 1) inner ⟨.Toroidal, [[0, 3]], 0⟩ rfl (Or.inr rfl)
      · show (if spEq ⟨.Toroidal, [[0, 3]], lt⟩ ⟨.Toroidal, [[0, 1]], 0⟩ then _ else _) = none
        rw [if_neg (by simp [spEq])]
        cases inner with
        | zero => rw [c4aux_add03_zero lt]
        | succ f =>
            rw [c4aux_add03 lt f]
            exact ih (count + 1) (f + 1) ⟨.Toroidal, [[0, 2]], 1⟩ rfl (Or.inl rfl)

/-- C4 counterexample -- the order computation does not terminate on every
non-zero-size configuration: the Toroidal configuration `[[0,1]]` (accepted by
construction) is such that the iterated sums `[[0,2]], [[0,3]], [[0,2]], ...`
never return to `[[0,1]]`, so `order` loops forever: no amount of fuel makes
the model return. -/
theorem c4_counterexample :
    resultGrid (fromGrid .Toroidal [[0, 1]] 5) = some [[0, 1]] ∧
    ¬ orderTerminates ⟨.Toroidal, [[0, 1]], 0⟩ := by
  constructor
  · decide
  · rintro ⟨inner, outer, n, h⟩
    have hadd : add ⟨.Toroidal, [[0, 1]], 0⟩ ⟨.Toroidal, [[0, 1]], 0⟩ inner
        = some (.ok (), ⟨.Toroidal, [[0, 2]], 0⟩) := by
      unfold add
      rw [if_neg (fun hc => hc rfl), if_neg (fun hc => Or.elim hc (fun hn => hn rfl) (fun hn => hn rfl))]
      have hg : addGrids [[0, 1]] [[0, 1]] = [[0, 2]] := rfl
      rw [hg, topple_stable_eq .Toroidal [[0, 2]] inner (stable_of_boundedStable _ (by decide))]
    have hnone : order ⟨.Toroidal, [[0, 1]], 0⟩ inner outer = none := by
      unfold order
      rw [hadd]
      exact c4aux_orderLoop_diverges outer 1 inner ⟨.Toroidal, [[0, 2]], 0⟩ rfl (Or.inl rfl)
    rw [hnone] at h
    cases h

/-- C4 amended -- the order loop terminates when iterated addition of `x`
returns to `x` (in particular on recurrent configurations), as on the repo's
own test case: `order` of the all-3 Finite 3x2 configuration is 7.  It does
not terminate on every non-zero-size configuration. -/
theorem c4_amended_order :
    resultGrid (fromGrid .Finite [[3, 3, 3], [3, 3, 3]] 9) = some [[3, 3, 3], [3, 3, 3]] ∧
    order ⟨.Finite, [[3, 3, 3], [3, 3, 3]], 0⟩ 30 10 = some 7 := by
  decide

/-- Witness for C9 at concrete mismatched operands. -/
theorem c9_add_mismatch_witness :
    add ⟨.Finite, [[1]], 0⟩ ⟨.Toroidal, [[0]], 0⟩ 3
      = some (.error (.UnequalTypes .Finite .Toroidal), ⟨.Finite, [[1]], 0⟩) ∧
    add ⟨.Finite, [[1]], 0⟩ ⟨.Finite, [[1, 2]], 0⟩ 3
      = some (.error (.UnequalDimensions 1 1 1 2), ⟨.Finite, [[1]], 0⟩) :=
  ⟨(c9_add_mismatch ⟨.Finite, [[1]], 0⟩ ⟨.Toroidal, [[0]], 0⟩ 3).1 (by decide),
   (c9_add_mismatch ⟨.Finite, [[1]], 0⟩ ⟨.Finite, [[1, 2]], 0⟩ 3).2 rfl (by decide)⟩

/-! ### Reading and writing cells -/

theorem lget_oob (r : List Nat) (j : Nat) (h : r.length ≤ j) : lget r j = 0 := by
  induction r generalizing j with
  | nil => rfl
  | cons a t ih =>
      cases j with
      | zero => exact absurd h (by simp)
      | succ j => exact ih j (Nat.le_of_succ_le_succ h)

theorem getRow_oob (g : Grid) (i : Nat) (h : g.length ≤ i) : getRow g i = [] := by
  induction g generalizing i with
  | nil => rfl
  | cons r t ih =>
      cases i with
      | zero => exact absurd h (by simp)
      | succ i => exact ih i (Nat.le_of_succ_le_succ h)

theorem lset_lget_self (r : List Nat) (j : Nat) : lset r j (lget r j) = r := by
  induction r generalizing j with
  | nil => rfl
  | cons a t ih =>
      cases j with
      | zero => rfl
      | succ j => simp [lset, lget, ih j]

theorem setRow_getRow_self (g : Grid) (i : Nat) : setRow g i (getRow g i) = g := by
  induction g generalizing i with
  | nil => rfl
  | cons r t ih =>
      cases i with
      | zero => rfl
      | succ i => simp [setRow, getRow, ih i]

theorem set2_get2_self (g : Grid) (i j : Nat) : set2 g i j (get2 g i j) = g := by
  unfold set2 get2
  rw [lset_lget_self, setRow_getRow_self]

theorem lget_lset_self_or (r : List Nat) (j v : Nat) :
    lget (lset r j v) j = v ∨ (r.length ≤ j ∧ lset r j v = r) := by
  induction r generalizing j with
  | nil => exact Or.inr (by simp [lset])
  | cons a t ih =>
      cases j with
      | zero => exact Or.inl rfl
      | succ j =>
          rcases ih j with h | ⟨h1, h2⟩
          · exact Or.inl h
          · exact Or.inr ⟨by simpa using Nat.succ_le_succ h1, by simp [lset, h2]⟩

theorem getRow_setRow_self_or (g : Grid) (i : Nat) (r : List Nat) :
    getRow (setRow g i r) i = r ∨ (g.length ≤ i ∧ setRow g i r = g) := by
  induction g generalizing i with
  | nil => exact Or.inr (by simp [setRow])
  | cons a t ih =>
      cases i with
      | zero => exact Or.inl rfl
      | succ i =>
          rcases ih i with h | ⟨h1, h2⟩
          · exact Or.inl h
          · exact Or.inr ⟨by simpa using Nat.succ_le_succ h1, by simp [setRow, h2]⟩

theorem get2_set2_self_or (g : Grid) (i j v : Nat) :
    get2 (set2 g i j v) i j = v ∨ (set2 g i j v = g ∧ get2 g i j = 0) := by
  rcases getRow_setRow_self_or g i (lset (getRow g i) j v) with h | ⟨h1, h2⟩
  · rcases lget_lset_self_or (getRow g i) j v with h2 | ⟨h3, h4⟩
    · left
      unfold get2 set2
      rw [h, h2]
    · right
      refine ⟨?_, lget_oob _ _ h3⟩
      unfold set2
      rw [h4, setRow_getRow_self]
  · right
    refine ⟨h2, ?_⟩
    unfold get2
    rw [getRow_oob g i h1]
    rfl

theorem lget_lset_ne (r : List Nat) (j j' v : Nat) (h : j' ≠ j) :
    lget (lset r j v) j' = lget r j' := by
  induction r generalizing j j' with
  | nil => rfl
  | cons a t ih =>
      cases j with
      | zero =>
          cases j' with
          | zero => exact absurd rfl h
          | succ j' => rfl
      | succ j =>
          cases j' with
          | zero => rfl
          | succ j' => exact ih j j' fun he => h (by rw [he])

theorem getRow_setRow_ne (g : Grid) (i i' : Nat) (r : List Nat) (h : i' ≠ i) :
    getRow (setRow g i r) i' = getRow g i' := by
  induction g generalizing i i' with
  | nil => rfl
  | cons a t ih =>
      cases i with
      | zero =>
          cases i' with
          | zero => exact absurd rfl h
          | succ i' => rfl
      | succ i =>
          cases i' with
          | zero => rfl
          | succ i' => exact ih i i' fun he => h (by rw [he])

theorem get2_set2_ne (g : Grid) (i j i' j' v : Nat) (h : ¬(i' = i ∧ j' = j)) :
    get2 (set2 g i j v) i' j' = get2 g i' j' := by
  by_cases hi : i' = i
  · subst hi
    have hj : j' ≠ j := fun hj => h ⟨rfl, hj⟩
    rcases getRow_setRow_self_or g i' (lset (getRow g i') j v) with h1 | ⟨_, h2⟩
    · unfold get2 set2
      rw [h1, lget_lset_ne _ _ _ _ hj]
    · unfold get2 set2
      rw [h2]
  · unfold get2 set2
    rw [getRow_setRow_ne _ _ _ _ hi]

/-! ### The active-set invariant: cells at 4 or more are always scheduled -/

theorem insertCell_mem (l : List (Nat × Nat)) (p : Nat × Nat) : p ∈ insertCell l p := by
  unfold insertCell
  split
  · assumption
  · simp

theorem insertCell_subset (l : List (Nat × Nat)) (p q : Nat × Nat) (h : q ∈ l) :
    q ∈ insertCell l p := by
  unfold insertCell
  split
  · exact h
  · simp [h]

theorem credit_cons (g : Grid) (ex2 : List (Nat × Nat)) (d ti tj : Nat)
    (rest : List (Nat × Nat)) :
    credit g ex2 d ((ti, tj) :: rest) =
      credit (set2 g ti tj (get2 g ti tj + d))
        (if 4 ≤ get2 (set2 g ti tj (get2 g ti tj + d)) ti tj
         then insertCell ex2 (ti, tj) else ex2) d rest := rfl

theorem credit_inv (d : Nat) (S : List (Nat × Nat)) :
    ∀ (ts : List (Nat × Nat)) (g : Grid) (ex2 : List (Nat × Nat)),
    (∀ p : Nat × Nat, 4 ≤ get2 g p.1 p.2 → p ∈ S ∨ p ∈ ex2) →
    ∀ p : Nat × Nat, 4 ≤ get2 (credit g ex2 d ts).1 p.1 p.2 →
      p ∈ S ∨ p ∈ (credit g ex2 d ts).2 := by
  intro ts
  induction ts with
  | nil => intro g ex2 hpre p hp; exact hpre p hp
  | cons c rest ih =>
      obtain ⟨ti, tj⟩ := c
      intro g ex2 hpre p hp
      rw [credit_cons] at hp ⊢
      refine ih _ _ ?_ p hp
      intro q hq
      by_cases hqc : q = (ti, tj)
      · subst hqc
        have h4 : 4 ≤ get2 (set2 g ti tj (get2 g ti tj + d)) ti tj := hq
        rw [if_pos h4]
        exact Or.inr (insertCell_mem ex2 (ti, tj))
      · have hne : ¬(q.1 = ti ∧ q.2 = tj) := by
          intro ⟨h1, h2⟩
          exact hqc (Prod.ext h1 h2)
        rw [get2_set2_ne g ti tj q.1 q.2 _ hne] at hq
        rcases hpre q hq with h | h
        · exact Or.inl h
        · right
          split
          · exact insertCell_subset ex2 (ti, tj) q h
          · exact h

theorem processRound_cons (t : GridType) (g : Grid) (cnt : Nat)
    (ex2 : List (Nat × Nat)) (i j : Nat) (rest : List (Nat × Nat)) :
    processRound t g cnt ex2 ((i, j) :: rest) =
      if get2 g i j / 4 = 0 then processRound t g cnt ex2 rest
      else
        processRound t
          (credit (set2 g i j (get2 g i j % 4)) ex2 (get2 g i j / 4)
            (targets t (set2 g i j (get2 g i j % 4)) i j)).1
          (cnt + get2 g i j / 4)
          (credit (set2 g i j (get2 g i j % 4)) ex2 (get2 g i j / 4)
            (targets t (set2 g i j (get2 g i j % 4)) i j)).2 rest := rfl

theorem div4_eq_zero_iff (v : Nat) : v / 4 = 0 ↔ v < 4 :=
  Nat.div_eq_zero_iff (by norm_num)

theorem processRound_inv (t : GridType) :
    ∀ (active : List (Nat × Nat)) (g : Grid) (cnt : Nat) (ex2 : List (Nat × Nat)),
    (∀ p : Nat × Nat, 4 ≤ get2 g p.1 p.2 → p ∈ active ∨ p ∈ ex2) →
    ∀ p : Nat × Nat, 4 ≤ get2 (processRound t g cnt ex2 active).1 p.1 p.2 →
      p ∈ (processRound t g cnt ex2 active).2.2 := by
  intro active
  induction active with
  | nil =>
      intro g cnt ex2 hpre p hp
      rcases hpre p hp with h | h
      · cases h
      · exact h
  | cons c rest ih =>
      obtain ⟨i, j⟩ := c
      intro g cnt ex2 hpre p hp
      rw [processRound_cons] at hp ⊢
      by_cases hd : get2 g i j / 4 = 0
      · rw [if_pos hd] at hp ⊢
        have hlt : get2 g i j < 4 := (div4_eq_zero_iff _).mp hd
        refine ih g cnt ex2 ?_ p hp
        intro q hq
        rcases hpre q hq with h | h
        · rcases List.mem_cons.mp h with he | he
          · subst he
            exact absurd hq (Nat.not_le.mpr hlt)
          · exact Or.inl he
        · exact Or.inr h
      · rw [if_neg hd] at hp ⊢
        have h4 : 4 ≤ get2 g i j := by
          rcases Nat.lt_or_ge (get2 g i j) 4 with h | h
          · exact absurd ((div4_eq_zero_iff _).mpr h) hd
          · exact h
        refine ih _ _ _ ?_ p hp
        refine credit_inv _ rest _ _ _ ?_
        intro q hq
        by_cases hqc : q = (i, j)
        · subst hqc
          exfalso
          rcases get2_set2_self_or g i j (get2 g i j % 4) with he | ⟨_, he⟩
          · rw [he] at hq
            exact absurd hq (Nat.not_le.mpr (Nat.mod_lt _ (by norm_num)))
          · rw [he] at h4
            exact absurd h4 (by norm_num)
        · have hne : ¬(q.1 = i ∧ q.2 = j) := by
            intro ⟨h1, h2⟩
            exact hqc (Prod.ext h1 h2)
          rw [get2_set2_ne g i j q.1 q.2 _ hne] at hq
          rcases hpre q hq with h | h
          · rcases List.mem_cons.mp h with he | he
            · exact absurd he hqc
            · exact Or.inl he
          · exact Or.inr h

theorem toppleLoop_stable (t : GridType) :
    ∀ (fuel : Nat) (g : Grid) (active : List (Nat × Nat)) (cnt : Nat)
      (g' : Grid) (c : Nat),
    (∀ p : Nat × Nat, 4 ≤ get2 g p.1 p.2 → p ∈ active) →
    toppleLoop t g active cnt fuel = some (g', c) → Stable g' := by
  intro fuel
  induction fuel with
  | zero =>
      intro g active cnt g' c hinv h
      cases active with
      | nil =>
          injection h with h'
          injection h' with h1 h2
          subst h1
          intro i j
          rcases Nat.lt_or_ge (get2 g i j) 4 with hlt | hge
          · exact hlt
          · cases hinv (i, j) hge
      | cons a rest => cases h
  | succ n ih =>
      intro g active cnt g' c hinv h
      cases active with
      | nil =>
          injection h with h'
          injection h' with h1 h2
          subst h1
          intro i j
          rcases Nat.lt_or_ge (get2 g i j) 4 with hlt | hge
          · exact hlt
          · cases hinv (i, j) hge
      | cons a rest =>
          rw [toppleLoop_cons] at h
          refine ih _ _ _ _ _ ?_ h
          exact processRound_inv t (a :: rest) g 0 []
            (fun p hp => Or.inl (hinv p hp))

theorem scanRowAux_mem (i : Nat) (r : List Nat) :
    ∀ (j0 j : Nat), 4 ≤ lget r j → (i, j0 + j) ∈ scanRowAux i j0 r := by
  induction r with
  | nil =>
      intro j0 j h
      rw [lget_oob [] j (by simp)] at h
      exact absurd h (by norm_num)
  | cons v t ih =>
      intro j0 j h
      cases j with
      | zero =>
          have hv : 4 ≤ v := h
          simp only [scanRowAux, if_pos hv, List.mem_append]
          exact Or.inl (by simp)
      | succ j =>
          have := ih (j0 + 1) j h
          simp only [scanRowAux, List.mem_append]
          right
          rw [show j0 + (j + 1) = j0 + 1 + j by omega]
          exact this

theorem scanAux_mem (g : Grid) :
    ∀ (i0 i j : Nat), 4 ≤ get2 g i j → (i0 + i, j) ∈ scanAux i0 g := by
  induction g with
  | nil =>
      intro i0 i j h
      unfold get2 at h
      rw [getRow_oob [] i (by simp)] at h
      rw [lget_oob [] j (by simp)] at h
      exact absurd h (by norm_num)
  | cons r t ih =>
      intro i0 i j h
      cases i with
      | zero =>
          simp only [scanAux, List.mem_append]
          left
          have := scanRowAux_mem i0 r 0 j h
          simpa using this
      | succ i =>
          simp only [scanAux, List.mem_append]
          right
          have := ih (i0 + 1) i j h
          rw [show i0 + (i + 1) = i0 + 1 + i by omega]
          exact this

theorem activeCells_complete (g : Grid) (i j : Nat) (h : 4 ≤ get2 g i j) :
    (i, j) ∈ activeCells g := by
  have := scanAux_mem g 0 i j h
  simpa using this

theorem topple_stable_of_some (t : GridType) (g : Grid) (fuel : Nat)
    (g' : Grid) (c : Nat) (h : topple t g fuel = some (g', c)) : Stable g' := by
  refine toppleLoop_stable t fuel g (activeCells g) 0 g' c ?_ h
  intro p hp
  exact activeCells_complete g p.1 p.2 hp

/-! ### Inversion of the public constructors -/

theorem fromGrid_inv (t : GridType) (g : Grid) (fuel : Nat) (s : GridSandpile)
    (h : fromGrid t g fuel = .ok (some s)) :
    s.grid_type = t ∧ g ≠ [] ∧ (firstRow g).length ≠ 0 ∧
    findBadRow (firstRow g).length 1 g.tail = none ∧
    topple t (if t = .Toroidal then set2 g 0 0 0 else g) fuel
      = some (s.grid, s.last_topple) := by
  unfold fromGrid at h
  split at h
  · cases h
  next hne =>
    split at h
    · cases h
    next hlen =>
      split at h
      next i l2 hbad => cases h
      next hbad =>
        split at h
        next htop =>
          injection h with h1
          cases h1
        next g2 c htop =>
          injection h with h1
          injection h1 with h2
          subst h2
          exact ⟨rfl, hne, hlen, hbad, by rw [htop]⟩

theorem fromString_inv (t : GridType) (x y : Nat) (str : String) (fuel : Nat)
    (s : GridSandpile) (h : fromString t x y str fuel = .ok (some s)) :
    ∃ g, parseLines (rustLines str) = .ok g ∧ fromGrid t g fuel = .ok (some s) ∧
      s.grid.length = y ∧ (firstRow s.grid).length = x := by
  unfold fromString at h
  split at h
  next e hp => cases h
  next g hp =>
    split at h
    · cases h
    next hne =>
      split at h
      next e hfg => cases h
      next hfg =>
        injection h with h1
        cases h1
      next sp hfg =>
        split at h
        · cases h
        next hdim =>
          injection h with h1
          injection h1 with h2
          subst h2
          push_neg at hdim
          exact ⟨g, hp, hfg, hdim.1, hdim.2⟩

theorem add_inv (a b : GridSandpile) (fuel : Nat) (s : GridSandpile)
    (h : add a b fuel = some (.ok (), s)) :
    s.grid_type = a.grid_type ∧ a.grid_type = b.grid_type ∧
    topple a.grid_type (addGrids a.grid b.grid) fuel = some (s.grid, s.last_topple) := by
  unfold add at h
  split at h
  · simp at h
  next hty =>
    split at h
    · simp at h
    next hdim =>
      split at h
      · cases h
      next g2 c htop =>
        injection h with h1
        injection h1 with h2 h3
        subst h3
        exact ⟨rfl, not_not.mp hty, by rw [htop]⟩

theorem neutral_inv (t : GridType) (x y fuel : Nat) (s : GridSandpile)
    (h : neutral t x y fuel = .ok (some s)) :
    s.grid_type = t ∧ ∃ M : GridSandpile,
      fromGrid t (sixGrid x y) fuel = .ok (some M) ∧
      topple t (if t = .Toroidal
          then set2 (M.grid.map fun r => r.map fun v => 6 - v) 0 0 0
          else M.grid.map fun r => r.map fun v => 6 - v) fuel
        = some (s.grid, s.last_topple) := by
  unfold neutral at h
  split at h
  next e hfg => cases h
  next hfg =>
    injection h with h1
    cases h1
  next sp hfg =>
    split at h
    next htop =>
      injection h with h1
      cases h1
    next g2 c htop =>
      injection h with h1
      injection h1 with h2
      subst h2
      exact ⟨rfl, sp, hfg, by rw [htop]⟩

theorem inverse_inv (a : GridSandpile) (fuel : Nat) (s : GridSandpile)
    (h : inverse a fuel = .ok (some s)) :
    s.grid_type = a.grid_type ∧ ∃ M : GridSandpile,
      fromGrid a.grid_type (sixGrid (firstRow a.grid).length a.grid.length) fuel
        = .ok (some M) ∧
      topple a.grid_type (if a.grid_type = .Toroidal
          then set2 (invGrid a M.grid) 0 0 0 else invGrid a M.grid) fuel
        = some (s.grid, s.last_topple) := by
  unfold inverse at h
  split at h
  next e hfg => cases h
  next hfg =>
    injection h with h1
    cases h1
  next sp hfg =>
    split at h
    next htop =>
      injection h with h1
      cases h1
    next g2 c htop =>
      injection h with h1
      injection h1 with h2
      subst h2
      exact ⟨rfl, sp, hfg, by rw [htop]⟩

/-! ### Stability of every publicly obtainable configuration (C1) -/

theorem produced_stable (s : GridSandpile) (h : Produced s) : Stable s.grid := by
  induction h with
  | fromGrid t g fuel s h =>
      obtain ⟨_, _, _, _, htop⟩ := fromGrid_inv t g fuel s h
      exact topple_stable_of_some _ _ _ _ _ htop
  | fromString t x y str fuel s h =>
      obtain ⟨g, _, hfg, _, _⟩ := fromString_inv t x y str fuel s h
      obtain ⟨_, _, _, _, htop⟩ := fromGrid_inv t g fuel s hfg
      exact topple_stable_of_some _ _ _ _ _ htop
  | add a b fuel s ha hb hadd iha ihb =>
      obtain ⟨_, _, htop⟩ := add_inv a b fuel s hadd
      exact topple_stable_of_some _ _ _ _ _ htop
  | neutral t x y fuel s h =>
      obtain ⟨_, M, _, htop⟩ := neutral_inv t x y fuel s h
      exact topple_stable_of_some _ _ _ _ _ htop
  | inverse a fuel s ha hinv iha =>
      obtain ⟨_, M, _, htop⟩ := inverse_inv a fuel s hinv
      exact topple_stable_of_some _ _ _ _ _ htop

/-- C1 -- Every configuration returned by a public operation (`from_grid`,
`from_string`, `add`, `neutral`, `inverse`) is stable: every cell value is
strictly less than 4. -/
theorem c1_produced_stable (s : GridSandpile) (h : Produced s) : Stable s.grid :=
  produced_stable s h

/-- Witness for C1 at a concretely constructed sandpile. -/
theorem c1_produced_stable_witness :
    get2 (GridSandpile.mk .Finite [[3, 1, 0], [2, 1, 2]] 0).grid 0 0 < 4 :=
  c1_produced_stable ⟨.Finite, [[3, 1, 0], [2, 1, 2]], 0⟩
    (Produced.fromGrid .Finite [[3, 1, 0], [2, 1, 2]] 5
      ⟨.Finite, [[3, 1, 0], [2, 1, 2]], 0⟩ rfl) 0 0

/-! ### Sink exclusion for the toroidal topology (C6) -/

theorem mem_sink_guard (a b : Nat)
    (h : (0, 0) ∈ (if a = 0 ∧ b = 0 then ([] : List (Nat × Nat)) else [(a, b)])) :
    False := by
  split at h
  · cases h
  next hc =>
    rw [List.mem_singleton] at h
    injection h with h1 h2
    exact hc ⟨h1.symm, h2.symm⟩

theorem targets_toroidal_no_sink (g : Grid) (i j : Nat) :
    (0, 0) ∉ targets .Toroidal g i j := by
  intro h
  simp only [targets, List.mem_append] at h
  rcases h with ((h | h) | h) | h
  · exact mem_sink_guard _ _ h
  · exact mem_sink_guard _ _ h
  · exact mem_sink_guard _ _ h
  · exact mem_sink_guard _ _ h

theorem credit_sink (d : Nat) :
    ∀ (ts : List (Nat × Nat)) (g : Grid) (ex2 : List (Nat × Nat)),
    (∀ q ∈ ts, q ≠ ((0, 0) : Nat × Nat)) →
    get2 (credit g ex2 d ts).1 0 0 = get2 g 0 0 := by
  intro ts
  induction ts with
  | nil => intros; rfl
  | cons c rest ih =>
      obtain ⟨ti, tj⟩ := c
      intro g ex2 hq
      rw [credit_cons]
      rw [ih _ _ (fun q hqm => hq q (List.mem_cons_of_mem _ hqm))]
      refine get2_set2_ne g ti tj 0 0 _ ?_
      intro hc
      exact hq (ti, tj) (List.mem_cons_self _ _) (by rw [← hc.1, ← hc.2])

theorem processRound_sink :
    ∀ (active : List (Nat × Nat)) (g : Grid) (cnt : Nat) (ex2 : List (Nat × Nat)),
    get2 g 0 0 = 0 → get2 (processRound .Toroidal g cnt ex2 active).1 0 0 = 0 := by
  intro active
  induction active with
  | nil => intro g cnt ex2 h; exact h
  | cons c rest ih =>
      obtain ⟨i, j⟩ := c
      intro g cnt ex2 h0
      rw [processRound_cons]
      split
      · exact ih g cnt ex2 h0
      next hd =>
        refine ih _ _ _ ?_
        rw [credit_sink _ _ _ _
          (fun q hq hqe => targets_toroidal_no_sink _ i j (hqe ▸ hq))]
        have hij : ¬(0 = i ∧ 0 = j) := by
          intro hc
          apply hd
          rw [← hc.1, ← hc.2, h0]
        rw [get2_set2_ne g i j 0 0 _ hij]
        exact h0

theorem toppleLoop_sink :
    ∀ (fuel : Nat) (g : Grid) (active : List (Nat × Nat)) (cnt : Nat)
      (g' : Grid) (c : Nat), get2 g 0 0 = 0 →
    toppleLoop .Toroidal g active cnt fuel = some (g', c) → get2 g' 0 0 = 0 := by
  intro fuel
  induction fuel with
  | zero =>
      intro g active cnt g' c h0 h
      cases active with
      | nil =>
          injection h with h'
          injection h' with h1 h2
          subst h1
          exact h0
      | cons a rest => cases h
  | succ n ih =>
      intro g active cnt g' c h0 h
      cases active with
      | nil =>
          injection h with h'
          injection h' with h1 h2
          subst h1
          exact h0
      | cons a rest =>
          rw [toppleLoop_cons] at h
          exact ih _ _ _ _ _ (processRound_sink (a :: rest) g 0 [] h0) h

theorem topple_sink (g : Grid) (fuel : Nat) (g' : Grid) (c : Nat)
    (h0 : get2 g 0 0 = 0) (h : topple .Toroidal g fuel = some (g', c)) :
    get2 g' 0 0 = 0 :=
  toppleLoop_sink fuel g (activeCells g) 0 g' c h0 h

theorem set2_sink_zero (g : Grid) : get2 (set2 g 0 0 0) 0 0 = 0 := by
  rcases get2_set2_self_or g 0 0 0 with h | ⟨h1, h2⟩
  · exact h
  · rw [h1, h2]

theorem addGrids_sink (a b : Grid) (ha : get2 a 0 0 = 0) (hb : get2 b 0 0 = 0) :
    get2 (addGrids a b) 0 0 = 0 := by
  unfold addGrids
  rcases hl : a.length with _ | n
  · rfl
  · rcases hc : (firstRow a).length with _ | m
    · rfl
    · show get2 a 0 0 + get2 b 0 0 = 0
      rw [ha, hb]

theorem produced_sink (s : GridSandpile) (h : Produced s) :
    s.grid_type = .Toroidal → get2 s.grid 0 0 = 0 := by
  induction h with
  | fromGrid t g fuel s h =>
      intro ht
      obtain ⟨hty, _, _, _, htop⟩ := fromGrid_inv t g fuel s h
      have htt : t = .Toroidal := hty.symm.trans ht
      subst htt
      rw [if_pos rfl] at htop
      exact topple_sink _ _ _ _ (set2_sink_zero g) htop
  | fromString t x y str fuel s h =>
      intro ht
      obtain ⟨g, _, hfg, _, _⟩ := fromString_inv t x y str fuel s h
      obtain ⟨hty, _, _, _, htop⟩ := fromGrid_inv t g fuel s hfg
      have htt : t = .Toroidal := hty.symm.trans ht
      subst htt
      rw [if_pos rfl] at htop
      exact topple_sink _ _ _ _ (set2_sink_zero g) htop
  | add a b fuel s ha hb hadd iha ihb =>
      intro ht
      obtain ⟨hty, htyb, htop⟩ := add_inv a b fuel s hadd
      have hat : a.grid_type = .Toroidal := hty.symm.trans ht
      rw [hat] at htop
      exact topple_sink _ _ _ _
        (addGrids_sink a.grid b.grid (iha hat) (ihb (htyb.symm.trans hat))) htop
  | neutral t x y fuel s h =>
      intro ht
      obtain ⟨hty, M, _, htop⟩ := neutral_inv t x y fuel s h
      have htt : t = .Toroidal := hty.symm.trans ht
      subst htt
      rw [if_pos rfl] at htop
      exact topple_sink _ _ _ _ (set2_sink_zero _) htop
  | inverse a fuel s ha hinv iha =>
      intro ht
      obtain ⟨hty, M, _, htop⟩ := inverse_inv a fuel s hinv
      have hat : a.grid_type = .Toroidal := hty.symm.trans ht
      rw [hat] at htop
      rw [if_pos rfl] at htop
      exact topple_sink _ _ _ _ (set2_sink_zero _) htop

/-- C6 -- Sink exclusion for the toroidal topology: every configuration a
sequence of public operations can return has cell `(0,0)` equal to 0, and the
toppling distribution never credits `(0,0)` (it appears in no neighbour list). -/
theorem c6_toroidal_sink :
    (∀ s : GridSandpile, Produced s → s.grid_type = .Toroidal → get2 s.grid 0 0 = 0) ∧
    (∀ (g : Grid) (i j : Nat), (0, 0) ∉ targets .Toroidal g i j) :=
  ⟨fun s h ht => produced_sink s h ht, fun g i j => targets_toroidal_no_sink g i j⟩

/-- Witness for C6 at a concretely constructed toroidal sandpile. -/
theorem c6_toroidal_sink_witness :
    get2 (GridSandpile.mk .Toroidal [[0, 1, 0], [2, 1, 2]] 0).grid 0 0 = 0 ∧
    (0, 0) ∉ targets .Toroidal [[0, 1]] 0 1 :=
  ⟨c6_toroidal_sink.1 ⟨.Toroidal, [[0, 1, 0], [2, 1, 2]], 0⟩
     (Produced.fromGrid .Toroidal [[0, 1, 0], [2, 1, 2]] 5
       ⟨.Toroidal, [[0, 1, 0], [2, 1, 2]], 0⟩ rfl) rfl,
   c6_toroidal_sink.2 [[0, 1]] 0 1⟩

/-! ### Shape preservation and well-formedness -/

theorem lset_length (r : List Nat) (j v : Nat) : (lset r j v).length = r.length := by
  induction r generalizing j with
  | nil => rfl
  | cons a t ih =>
      cases j with
      | zero => rfl
      | succ j => simp [lset, ih j]

theorem map_length_setRow (g : Grid) (i : Nat) (r : List Nat)
    (h : r.length = (getRow g i).length) :
    (setRow g i r).map List.length = g.map List.length := by
  induction g generalizing i with
  | nil => rfl
  | cons a t ih =>
      cases i with
      | zero =>
          show r.length :: t.map List.length = a.length :: t.map List.length
          rw [show r.length = a.length from h]
      | succ i =>
          show a.length :: (setRow t i r).map List.length
            = a.length :: t.map List.length
          rw [ih i h]

theorem map_length_set2 (g : Grid) (i j v : Nat) :
    (set2 g i j v).map List.length = g.map List.length :=
  map_length_setRow g i _ (lset_length _ _ _)

theorem credit_shape (d : Nat) :
    ∀ (ts : List (Nat × Nat)) (g : Grid) (ex2 : List (Nat × Nat)),
    (credit g ex2 d ts).1.map List.length = g.map List.length := by
  intro ts
  induction ts with
  | nil => intros; rfl
  | cons c rest ih =>
      obtain ⟨ti, tj⟩ := c
      intro g ex2
      rw [credit_cons, ih, map_length_set2]

theorem processRound_shape (t : GridType) :
    ∀ (active : List (Nat × Nat)) (g : Grid) (cnt : Nat) (ex2 : List (Nat × Nat)),
    (processRound t g cnt ex2 active).1.map List.length = g.map List.length := by
  intro active
  induction active with
  | nil => intros; rfl
  | cons c rest ih =>
      obtain ⟨i, j⟩ := c
      intro g cnt ex2
      rw [processRound_cons]
      split
      · exact ih g cnt ex2
      · rw [ih, credit_shape, map_length_set2]

theorem toppleLoop_shape (t : GridType) :
    ∀ (fuel : Nat) (g : Grid) (active : List (Nat × Nat)) (cnt : Nat)
      (g' : Grid) (c : Nat),
    toppleLoop t g active cnt fuel = some (g', c) →
    g'.map List.length = g.map List.length := by
  intro fuel
  induction fuel with
  | zero =>
      intro g active cnt g' c h
      cases active with
      | nil =>
          injection h with h'
          injection h' with h1 _
          subst h1
          rfl
      | cons a rest => cases h
  | succ n ih =>
      intro g active cnt g' c h
      cases active with
      | nil =>
          injection h with h'
          injection h' with h1 _
          subst h1
          rfl
      | cons a rest =>
          rw [toppleLoop_cons] at h
          rw [ih _ _ _ _ _ h, processRound_shape]

theorem topple_shape (t : GridType) (g : Grid) (fuel : Nat) (g' : Grid) (c : Nat)
    (h : topple t g fuel = some (g', c)) : g'.map List.length = g.map List.length :=
  toppleLoop_shape t fuel g (activeCells g) 0 g' c h

theorem firstRow_length_of_map (g g' : Grid)
    (h : g'.map List.length = g.map List.length) :
    (firstRow g').length = (firstRow g).length := by
  cases g' with
  | nil =>
      cases g with
      | nil => rfl
      | cons r t => cases h
  | cons r' t' =>
      cases g with
      | nil => cases h
      | cons r t =>
          show r'.length = r.length
          simpa using congrArg (fun l => l.headD 0) h

theorem WF_of_map_length (g g' : Grid)
    (h : g'.map List.length = g.map List.length) (hw : WF g) : WF g' := by
  obtain ⟨h1, h2, h3⟩ := hw
  refine ⟨?_, ?_, ?_⟩
  · intro hnil
    apply h1
    subst hnil
    cases g with
    | nil => rfl
    | cons r t => cases h
  · rw [firstRow_length_of_map g g' h]
    exact h2
  · intro r hr
    have hm : r.length ∈ g.map List.length := by
      rw [← h]
      exact List.mem_map_of_mem List.length hr
    rcases List.mem_map.mp hm with ⟨r0, hr0, he⟩
    rw [firstRow_length_of_map g g' h, ← he]
    exact h3 r0 hr0

theorem rows_of_findBadRow_none (l : Nat) :
    ∀ (rest : List (List Nat)) (k : Nat), findBadRow l k rest = none →
    ∀ r ∈ rest, r.length = l := by
  intro rest
  induction rest with
  | nil => intro k h r hr; cases hr
  | cons a t ih =>
      intro k h r hr
      unfold findBadRow at h
      split at h
      · cases h
      next hc =>
        rcases List.mem_cons.mp hr with he | he
        · subst he
          exact not_not.mp hc
        · exact ih (k + 1) h r he

theorem findBadRow_none_of (l : Nat) :
    ∀ (rest : List (List Nat)) (k : Nat), (∀ r ∈ rest, r.length = l) →
    findBadRow l k rest = none := by
  intro rest
  induction rest with
  | nil => intros; rfl
  | cons r t ih =>
      intro k hall
      unfold findBadRow
      rw [if_neg (by simp [hall r (List.mem_cons_self r t)])]
      exact ih (k + 1) (fun q hq => hall q (List.mem_cons_of_mem r hq))

theorem fromGrid_WF (t : GridType) (g : Grid) (fuel : Nat) (s : GridSandpile)
    (h : fromGrid t g fuel = .ok (some s)) : WF s.grid := by
  obtain ⟨_, hne, hlen, hbad, htop⟩ := fromGrid_inv t g fuel s h
  have hwg : WF g := by
    refine ⟨hne, hlen, ?_⟩
    intro r hr
    cases g with
    | nil => cases hr
    | cons a tl =>
        rcases List.mem_cons.mp hr with he | he
        · subst he; rfl
        · exact rows_of_findBadRow_none _ tl 1 hbad r he
  have hsh : s.grid.map List.length = g.map List.length := by
    rw [topple_shape _ _ _ _ _ htop]
    split
    · exact map_length_set2 g 0 0 0
    · rfl
  exact WF_of_map_length g s.grid hsh hwg

theorem mkRow_length (f : Nat → Nat) : ∀ (n j : Nat), (mkRow f j n).length = n := by
  intro n
  induction n with
  | zero => intro j; rfl
  | succ m ih => intro j; simp [mkRow, ih (j + 1)]

theorem mem_mkGridAux (f : Nat → Nat → Nat) (cols : Nat) :
    ∀ (rows i0 : Nat) (r : List Nat), r ∈ mkGridAux f cols i0 rows →
    ∃ i, r = mkRow (f i) 0 cols := by
  intro rows
  induction rows with
  | zero => intro i0 r hr; cases hr
  | succ m ih =>
      intro i0 r hr
      rcases List.mem_cons.mp hr with he | he
      · exact ⟨i0, he⟩
      · exact ih (i0 + 1) r he

theorem WF_mkGridAux (f : Nat → Nat → Nat) (cols rows : Nat)
    (hr : rows ≠ 0) (hc : cols ≠ 0) : WF (mkGridAux f cols 0 rows) := by
  cases rows with
  | zero => exact absurd rfl hr
  | succ m =>
      refine ⟨?_, ?_, ?_⟩
      · intro hnil
        exact List.noConfusion hnil
      · show (mkRow (f 0) 0 cols).length ≠ 0
        rw [mkRow_length]
        exact hc
      · intro r hrm
        rcases mem_mkGridAux f cols (m + 1) 0 r hrm with ⟨i, he⟩
        subst he
        show (mkRow (f i) 0 cols).length = (mkRow (f 0) 0 cols).length
        rw [mkRow_length, mkRow_length]

theorem map_length_mapmap (f : Nat → Nat) (g : Grid) :
    (g.map (List.map f)).map List.length = g.map List.length := by
  induction g with
  | nil => rfl
  | cons r t ih =>
      show (List.map f r).length :: _ = r.length :: _
      rw [List.length_map, ih]

theorem produced_WF (s : GridSandpile) (h : Produced s) : WF s.grid := by
  induction h with
  | fromGrid t g fuel s h => exact fromGrid_WF t g fuel s h
  | fromString t x y str fuel s h =>
      obtain ⟨g, _, hfg, _, _⟩ := fromString_inv t x y str fuel s h
      exact fromGrid_WF t g fuel s hfg
  | add a b fuel s ha hb hadd iha ihb =>
      obtain ⟨_, _, htop⟩ := add_inv a b fuel s hadd
      have hwadd : WF (addGrids a.grid b.grid) := by
        unfold addGrids
        refine WF_mkGridAux _ _ _ ?_ ?_
        · intro h0
          exact iha.1 (List.length_eq_zero.mp h0)
        · exact iha.2.1
      exact WF_of_map_length _ _ (topple_shape _ _ _ _ _ htop) hwadd
  | neutral t x y fuel s h =>
      obtain ⟨_, M, hfg, htop⟩ := neutral_inv t x y fuel s h
      have hwm : WF M.grid := fromGrid_WF _ _ _ _ hfg
      have hwmap : WF (M.grid.map fun r => r.map fun v => 6 - v) :=
        WF_of_map_length _ _ (map_length_mapmap _ _) hwm
      have hsh : s.grid.map List.length
          = (M.grid.map fun r => r.map fun v => 6 - v).map List.length := by
        rw [topple_shape _ _ _ _ _ htop]
        split
        · exact map_length_set2 _ 0 0 0
        · rfl
      exact WF_of_map_length _ _ hsh hwmap
  | inverse a fuel s ha hinv iha =>
      obtain ⟨_, M, hfg, htop⟩ := inverse_inv a fuel s hinv
      have hwi : WF (invGrid a M.grid) := by
        unfold invGrid
        refine WF_mkGridAux _ _ _ ?_ ?_
        · intro h0
          exact iha.1 (List.length_eq_zero.mp h0)
        · exact iha.2.1
      have hsh : s.grid.map List.length = (invGrid a M.grid).map List.length := by
        rw [topple_shape _ _ _ _ _ htop]
        split
        · exact map_length_set2 _ 0 0 0
        · rfl
      exact WF_of_map_length _ _ hsh hwi

/-! ### The text round trip (C10) -/

theorem glyphChar_ne_newline (v : Nat) : glyphChar v ≠ '\n' := by
  by_cases h : v < 4
  · interval_cases v <;> decide
  · simp only [glyphChar, if_neg h]
    decide

theorem linesAux_cons (acc : List Char) (c : Char) (rest : List Char) :
    linesAux acc (c :: rest) =
      if c = '\n' then acc.reverse :: linesAux [] rest
      else linesAux (c :: acc) rest := rfl

theorem linesAux_append (xs : List Char) :
    ∀ (acc rest : List Char), '\n' ∉ xs →
    linesAux acc (xs ++ '\n' :: rest) = (acc.reverse ++ xs) :: linesAux [] rest := by
  induction xs with
  | nil =>
      intro acc rest _
      rw [List.nil_append, linesAux_cons, if_pos rfl, List.append_nil]
  | cons c t ih =>
      intro acc rest hnl
      have hc : c ≠ '\n' := fun he => hnl (he ▸ List.mem_cons_self c t)
      rw [List.cons_append, linesAux_cons, if_neg hc,
        ih (c :: acc) rest (fun hm => hnl (List.mem_cons_of_mem c hm))]
      simp

theorem linesAux_renderChars (g : Grid) :
    linesAux [] (renderChars g) = g.map (List.map glyphChar) := by
  induction g with
  | nil => rfl
  | cons r t ih =>
      show linesAux [] (r.map glyphChar ++ '\n' :: renderChars t) = _
      rw [linesAux_append (r.map glyphChar) [] (renderChars t) ?nonl, ih]
      · simp
      case nonl =>
        intro hm
        rcases List.mem_map.mp hm with ⟨v, _, he⟩
        exact glyphChar_ne_newline v he

theorem charVal_glyphChar (v : Nat) (h : v < 4) : charVal (glyphChar v) = some v := by
  interval_cases v <;> decide

theorem parseRow_glyphs (r : List Nat) (h : ∀ v ∈ r, v < 4) :
    parseRow (r.map glyphChar) = .ok r := by
  induction r with
  | nil => rfl
  | cons v t ih =>
      show parseRow (glyphChar v :: t.map glyphChar) = _
      unfold parseRow
      rw [charVal_glyphChar v (h v (List.mem_cons_self v t))]
      rw [ih (fun q hq => h q (List.mem_cons_of_mem v hq))]

theorem parseLines_glyphs (g : Grid) (h : ∀ r ∈ g, ∀ v ∈ r, v < 4) :
    parseLines (g.map (List.map glyphChar)) = .ok g := by
  induction g with
  | nil => rfl
  | cons r t ih =>
      show parseLines (r.map glyphChar :: t.map (List.map glyphChar)) = _
      unfold parseLines
      rw [parseRow_glyphs r (h r (List.mem_cons_self r t))]
      rw [ih (fun q hq => h q (List.mem_cons_of_mem r hq))]

theorem getRow_of_mem (g : Grid) (r : List Nat) (h : r ∈ g) :
    ∃ i, getRow g i = r := by
  induction g with
  | nil => cases h
  | cons a t ih =>
      rcases List.mem_cons.mp h with he | he
      · exact ⟨0, he.symm⟩
      · rcases ih he with ⟨i, hi⟩
        exact ⟨i + 1, hi⟩

theorem lget_of_mem (r : List Nat) (v : Nat) (h : v ∈ r) :
    ∃ j, lget r j = v := by
  induction r with
  | nil => cases h
  | cons a t ih =>
      rcases List.mem_cons.mp h with he | he
      · exact ⟨0, he.symm⟩
      · rcases ih he with ⟨j, hj⟩
        exact ⟨j + 1, hj⟩

theorem stable_cells (g : Grid) (h : Stable g) : ∀ r ∈ g, ∀ v ∈ r, v < 4 := by
  intro r hr v hv
  rcases getRow_of_mem g r hr with ⟨i, hi⟩
  rcases lget_of_mem r v hv with ⟨j, hj⟩
  have := h i j
  rw [get2, hi, hj] at this
  exact this

theorem set2_sink_noop (g : Grid) (h0 : get2 g 0 0 = 0) : set2 g 0 0 0 = g := by
  have he := set2_get2_self g 0 0
  rw [h0] at he
  exact he

/-- C10 -- Round trip through the text representation: rendering any publicly
obtainable configuration with the 5-glyph alphabet and parsing it back with
`from_string` under the same topology and dimensions succeeds and returns an
equal configuration (the source's `PartialEq`, which ignores the toppling
count). -/
theorem c10_roundtrip (s : GridSandpile) (fuel : Nat) (h : Produced s) :
    fromString s.grid_type (firstRow s.grid).length s.grid.length (render s) fuel
      = .ok (some ⟨s.grid_type, s.grid, 0⟩) ∧
    spEq ⟨s.grid_type, s.grid, 0⟩ s = true := by
  have hst : Stable s.grid := produced_stable s h
  have hwf : WF s.grid := produced_WF s h
  have hparse : parseLines (rustLines (render s)) = .ok s.grid := by
    show parseLines (linesAux [] (render s).data) = .ok s.grid
    rw [show (render s).data = renderChars s.grid from rfl]
    rw [linesAux_renderChars]
    exact parseLines_glyphs s.grid (stable_cells s.grid hst)
  have hfg : fromGrid s.grid_type s.grid fuel = .ok (some ⟨s.grid_type, s.grid, 0⟩) := by
    unfold fromGrid
    rw [if_neg hwf.1, if_neg hwf.2.1]
    have hbad : findBadRow (firstRow s.grid).length 1 s.grid.tail = none := by
      refine findBadRow_none_of _ _ _ ?_
      intro r hr
      refine hwf.2.2 r ?_
      revert hr
      cases hg : s.grid with
      | nil => intro hr; cases hr
      | cons a t => intro hr; exact List.mem_cons_of_mem a hr
    rw [hbad]
    have hset : (if s.grid_type = .Toroidal then set2 s.grid 0 0 0 else s.grid)
        = s.grid := by
      split
      next htor => exact set2_sink_noop s.grid (produced_sink s h htor)
      next => rfl
    rw [hset, topple_stable_eq _ _ _ hst]
  constructor
  · unfold fromString
    split
    next e hp =>
        rw [hparse] at hp
        cases hp
    next g hp =>
        rw [hparse] at hp
        injection hp with hg
        subst hg
        split
        next hc =>
            exfalso
            rcases hc with hc | hc | hc
            · exact hwf.1 (List.length_eq_zero.mp hc)
            · exact hwf.2.1 hc
            · exact hwf.1 hc
        next hc =>
            split
            next e hfg' =>
                rw [hfg] at hfg'
                cases hfg'
            next hfg' =>
                rw [hfg] at hfg'
                injection hfg' with h1
                cases h1
            next sp hfg' =>
                rw [hfg] at hfg'
                injection hfg' with h1
                injection h1 with h2
                subst h2
                rw [if_neg (fun hcon =>
                  Or.elim hcon (fun hn => hn rfl) (fun hn => hn rfl))]
  · unfold spEq
    exact decide_eq_true ⟨rfl, rfl⟩

/-- Witness for C10 at a concretely constructed sandpile. -/
theorem c10_roundtrip_witness :
    fromString (GridSandpile.mk .Finite [[3, 1, 0], [2, 1, 2]] 0).grid_type
        (firstRow (GridSandpile.mk .Finite [[3, 1, 0], [2, 1, 2]] 0).grid).length
        (GridSandpile.mk .Finite [[3, 1, 0], [2, 1, 2]] 0).grid.length
        (render ⟨.Finite, [[3, 1, 0], [2, 1, 2]], 0⟩) 7
      = .ok (some ⟨.Finite, [[3, 1, 0], [2, 1, 2]], 0⟩) ∧
    spEq ⟨.Finite, [[3, 1, 0], [2, 1, 2]], 0⟩ ⟨.Finite, [[3, 1, 0], [2, 1, 2]], 0⟩ = true :=
  c10_roundtrip ⟨.Finite, [[3, 1, 0], [2, 1, 2]], 0⟩ 7
    (Produced.fromGrid .Finite [[3, 1, 0], [2, 1, 2]] 5
      ⟨.Finite, [[3, 1, 0], [2, 1, 2]], 0⟩ rfl)

end Sandpile
